import Mathlib

/-
Verification of the orismologer translation engine against its specification.

The Go sources are shallowly embedded as follows.
  - Go strings are modeled as lists of characters (type Str below).
  - Go float64 values are modeled as exact rationals.  All inputs exercised
    by the statements below take integral values, on which IEEE float64
    arithmetic and formatting coincide with the exact rational semantics.
  - Go interface values flowing through the evaluator are modeled by the
    sum type GoVal (int, float64, string, nil).
  - Fallible Go functions returning (value, error) are modeled with an
    explicit result type.  A failed type assertion such as b.(float64) and
    log.Fatal are modeled by the distinguished outcome "crash", since both
    abort the process instead of returning an error.
  - The unbounded recursion of Orismologer.eval through sub-transformations
    is modeled with an explicit fuel parameter; exhausting the fuel yields
    the distinguished outcome "fuelOut", meaning the Go original would still
    be recursing at that depth.
-/

deriving instance DecidableEq for Except

/-- Go strings are byte strings; we model them as lists of characters. -/
abbrev Str : Type := List Char

/-- Convenience conversion from Lean string literals to the Str model. -/
def str (s : String) : Str := s.data

/-- Model of strings.HasPrefix from the Go standard library. -/
def goStartsWith (s pre : Str) : Bool := decide (pre <+: s)

/-- Model of strings.HasSuffix from the Go standard library. -/
def goEndsWith (s suf : Str) : Bool := decide (suf <:+ s)

/-- Model of strings.Contains from the Go standard library: substring occurrence. -/
def goContains (s sub : Str) : Bool :=
  sub.isPrefixOf s ||
    match s with
    | [] => false
    | _ :: t => goContains t sub

/-- Model of strings.TrimSuffix: drop one occurrence of the suffix, if present. -/
def goTrimSuffix (s suf : Str) : Str :=
  if goEndsWith s suf then s.take (s.length - suf.length) else s

namespace Oparse

/-- Values flowing through the Go expression evaluator (interface values).
Go int values are widened to float64 at every boundary of the evaluator;
float64 is modeled as an exact rational. -/
inductive GoVal where
  | vint (n : Int)
  | vfloat (q : ℚ)
  | vstr (s : Str)
  | vnil
deriving DecidableEq, Repr

/-- Structured model of the error values produced inside the oparse evaluator.
The Go code builds error strings; only their construction site and payload
are observable to the claims, so we keep them structured. -/
inductive OparseErr where
  | divisionByZero
  | unsupportedStringOp
  | unsupportedType
  | noSuchVariable (name : Str)
  | cannotCastVariable (name : Str)
  | callerErr (msg : Str)
deriving DecidableEq, Repr

/-- Outcome of evaluating a piece of a Go expression: a value, an error
returned through the error channel, or a process abort (failed type
assertion or log.Fatal), which we call a crash. -/
inductive EvalOut (α : Type) where
  | ok (v : α)
  | err (e : OparseErr)
  | crash
deriving DecidableEq, Repr

/-- True when the outcome is an ordinary value. -/
def EvalOut.isValue {α : Type} : EvalOut α → Bool
  | .ok _ => true
  | _ => false

/-- Arithmetic operator of the expression language (parser.go, type Operator). -/
inductive Op where
  | mul
  | div
  | add
  | sub
deriving DecidableEq, Repr

/- The AST types below mirror the participle-annotated structs of
oparse/parser.go.  Nil-able struct pointer fields become Option;
the grammar grouping structs OpFactor, OpTerm, Arg become constructors
holding the same data. -/

mutual

/-- Mirror of struct Value in parser.go: number, string literal, function
call, variable, or parenthesised subexpression.  The all-nil struct value
(never produced by the parser) is the empty constructor. -/
inductive Value where
  | number (q : ℚ)
  | strLiteral (s : Str)
  | function (f : Func)
  | variable_ (name : Str)
  | subexpression (e : Expression)
  | empty

/-- Mirror of struct Function in parser.go. -/
inductive Func where
  | mk (name : Str) (args : List Arg)

/-- Mirror of struct Arg: one function argument (the optional separator
comma carries no information). -/
inductive Arg where
  | mk (value : Expression)

/-- Mirror of struct Factor: a base and an optional exponent. -/
inductive Factor where
  | mk (base : Value) (exponent : Option Value)

/-- Mirror of struct OpFactor: a multiplicative operator and its factor. -/
inductive OpFactor where
  | mk (op : Op) (factor : Factor)

/-- Mirror of struct Term: a factor followed by more multiplicative steps. -/
inductive Term where
  | mk (left : Factor) (right : List OpFactor)

/-- Mirror of struct OpTerm: an additive operator and its term. -/
inductive OpTerm where
  | mk (op : Op) (term : Term)

/-- Mirror of struct Expression: an optional leading term (nil for the empty
expression) followed by additive steps. -/
inductive Expression where
  | mk (left : Option Term) (right : List OpTerm)

end

/-- Model of math.Pow on the rational model of float64.  Exact for integral
exponents and nonzero bases, which is the only regime the statements below
exercise. -/
def qpow (b e : ℚ) : ℚ := if e.den = 1 then b ^ e.num else 0

/-- Model of the default textual representation fmt.Sprint gives a float64:
for integral values Go prints the plain decimal digits, which is what this
returns; non-integral values get a num/den placeholder (never exercised by
the statements below, which only format integral values). -/
def formatFloat (q : ℚ) : Str :=
  if q.den = 1 then (toString q.num).data
  else (toString q.num).data ++ ['/'] ++ (toString q.den).data

/-- Model of fmt.Sprint on an evaluator value (used by the string
concatenation branch of Operator.eval). -/
def goSprint : GoVal → Str
  | .vint n => (toString n).data
  | .vfloat q => formatFloat q
  | .vstr s => s
  | .vnil => str "<nil>"

/-- Mirror of Operator.eval in parser.go.  The int guard calls log.Fatal in
Go, which aborts the process: modeled as crash. -/
def Op.eval (o : Op) (l r : GoVal) : EvalOut GoVal :=
  match l, r with
  | .vint _, _ => .crash
  | _, .vint _ => .crash
  | .vfloat lf, .vfloat rf =>
    match o with
    | .mul => .ok (.vfloat (lf * rf))
    | .div => if rf = 0 then .err .divisionByZero else .ok (.vfloat (lf / rf))
    | .add => .ok (.vfloat (lf + rf))
    | .sub => .ok (.vfloat (lf - rf))
  | _, _ =>
    if l matches .vstr _ then
      if o = .add then .ok (.vstr (goSprint l ++ goSprint r)) else .err .unsupportedStringOp
    else if r matches .vstr _ then
      if o = .add then .ok (.vstr (goSprint l ++ goSprint r)) else .err .unsupportedStringOp
    else
      .err .unsupportedType

/-- Variable binding table passed to the evaluator (oparse.Context). -/
abbrev Ctx : Type := List (Str × GoVal)

/-- Model of oparse.FunctionCaller. -/
abbrev Caller : Type := Str → List GoVal → EvalOut GoVal

mutual

/-- Mirror of Value.eval in parser.go. -/
def Value.eval (v : Value) (ctx : Ctx) (caller : Caller) : EvalOut GoVal :=
  match v with
  | .number q => .ok (.vfloat q)
  | .strLiteral s => .ok (.vstr s)
  | .variable_ name =>
    match ctx.lookup name with
    | none => .err (.noSuchVariable name)
    | some value =>
      match value with
      | .vint n => .ok (.vfloat (n : ℚ))
      | .vfloat q => .ok (.vfloat q)
      | .vstr s => .ok (.vstr s)
      | .vnil => .err (.cannotCastVariable name)
  | .function f => Func.eval f ctx caller
  | .subexpression e => Expression.eval e ctx caller
  | .empty => .ok .vnil

/-- Mirror of Function.eval in parser.go: evaluate the arguments left to
right, call the dispatcher, and widen an int result to float. -/
def Func.eval (f : Func) (ctx : Ctx) (caller : Caller) : EvalOut GoVal :=
  match f with
  | .mk name args =>
    match evalArgs args ctx caller with
    | .err e => .err e
    | .crash => .crash
    | .ok vs =>
      match caller name vs with
      | .err e => .err e
      | .crash => .crash
      | .ok (.vint n) => .ok (.vfloat (n : ℚ))
      | .ok v => .ok v

/-- Argument evaluation loop of Function.eval. -/
def evalArgs (args : List Arg) (ctx : Ctx) (caller : Caller) : EvalOut (List GoVal) :=
  match args with
  | [] => .ok []
  | .mk e :: rest =>
    match Expression.eval e ctx caller with
    | .err er => .err er
    | .crash => .crash
    | .ok v =>
      match evalArgs rest ctx caller with
      | .err er => .err er
      | .crash => .crash
      | .ok vs => .ok (v :: vs)

/-- Mirror of Factor.eval in parser.go.  The Go code applies the unchecked
type assertions b.(float64) and exponentEval.(float64); on a non-float
operand these panic, modeled as crash. -/
def Factor.eval (f : Factor) (ctx : Ctx) (caller : Caller) : EvalOut GoVal :=
  match f with
  | .mk base exponent =>
    match Value.eval base ctx caller with
    | .err e => .err e
    | .crash => .crash
    | .ok b =>
      match exponent with
      | none => .ok b
      | some ex =>
        match Value.eval ex ctx caller with
        | .err e => .err e
        | .crash => .crash
        | .ok ev =>
          match b, ev with
          | .vfloat bq, .vfloat eq => .ok (.vfloat (qpow bq eq))
          | _, _ => .crash

/-- Loop of Term.eval over the multiplicative steps. -/
def evalOpFactors (acc : GoVal) (rs : List OpFactor) (ctx : Ctx) (caller : Caller) :
    EvalOut GoVal :=
  match rs with
  | [] => .ok acc
  | .mk o f :: rest =>
    match Factor.eval f ctx caller with
    | .err e => .err e
    | .crash => .crash
    | .ok fv =>
      match Op.eval o acc fv with
      | .err e => .err e
      | .crash => .crash
      | .ok acc2 => evalOpFactors acc2 rest ctx caller

/-- Mirror of Term.eval in parser.go. -/
def Term.eval (t : Term) (ctx : Ctx) (caller : Caller) : EvalOut GoVal :=
  match t with
  | .mk left right =>
    match Factor.eval left ctx caller with
    | .err e => .err e
    | .crash => .crash
    | .ok l => evalOpFactors l right ctx caller

/-- Loop of Expression.eval over the additive steps. -/
def evalOpTerms (acc : GoVal) (rs : List OpTerm) (ctx : Ctx) (caller : Caller) :
    EvalOut GoVal :=
  match rs with
  | [] => .ok acc
  | .mk o t :: rest =>
    match Term.eval t ctx caller with
    | .err e => .err e
    | .crash => .crash
    | .ok tv =>
      match Op.eval o acc tv with
      | .err e => .err e
      | .crash => .crash
      | .ok acc2 => evalOpTerms acc2 rest ctx caller

/-- Mirror of Expression.eval in parser.go.  A nil Left pointer would be
dereferenced by the Go code, modeled as crash. -/
def Expression.eval (e : Expression) (ctx : Ctx) (caller : Caller) : EvalOut GoVal :=
  match e with
  | .mk none _ => .crash
  | .mk (some left) right =>
    match Term.eval left ctx caller with
    | .err er => .err er
    | .crash => .crash
    | .ok l => evalOpTerms l right ctx caller

end

/-- Mirror of oparse.Eval: evaluate the expression; Go only wraps a failing
error with explanatory text, which the structured error model keeps as is. -/
def evalTop (e : Expression) (ctx : Ctx) (caller : Caller) : EvalOut GoVal :=
  Expression.eval e ctx caller

mutual

/-- Mirror of Value.identifiers in parser.go: variables and function names
in source order. -/
def Value.identifiers : Value → List Str × List Str
  | .variable_ name => ([name], [])
  | .function f => Func.identifiers f
  | .subexpression e => Expression.identifiers e
  | .number _ => ([], [])
  | .strLiteral _ => ([], [])
  | .empty => ([], [])

/-- Mirror of Function.identifiers in parser.go. -/
def Func.identifiers : Func → List Str × List Str
  | .mk name args =>
    let rest := argsIdentifiers args
    (rest.1, name :: rest.2)

/-- Loop of Function.identifiers over the arguments. -/
def argsIdentifiers : List Arg → List Str × List Str
  | [] => ([], [])
  | .mk e :: rest =>
    let this := Expression.identifiers e
    let more := argsIdentifiers rest
    (this.1 ++ more.1, this.2 ++ more.2)

/-- Mirror of Factor.identifiers in parser.go. -/
def Factor.identifiers : Factor → List Str × List Str
  | .mk base exponent =>
    let b := Value.identifiers base
    match exponent with
    | none => b
    | some ex =>
      let e := Value.identifiers ex
      (b.1 ++ e.1, b.2 ++ e.2)

/-- Loop of Term.identifiers over the multiplicative steps. -/
def opFactorsIdentifiers : List OpFactor → List Str × List Str
  | [] => ([], [])
  | .mk _ f :: rest =>
    let this := Factor.identifiers f
    let more := opFactorsIdentifiers rest
    (this.1 ++ more.1, this.2 ++ more.2)

/-- Mirror of Term.identifiers in parser.go. -/
def Term.identifiers : Term → List Str × List Str
  | .mk left right =>
    let l := Factor.identifiers left
    let r := opFactorsIdentifiers right
    (l.1 ++ r.1, l.2 ++ r.2)

/-- Loop of Expression.Identifiers over the additive steps. -/
def opTermsIdentifiers : List OpTerm → List Str × List Str
  | [] => ([], [])
  | .mk _ t :: rest =>
    let this := Term.identifiers t
    let more := opTermsIdentifiers rest
    (this.1 ++ more.1, this.2 ++ more.2)

/-- Mirror of Expression.Identifiers in parser.go (nil Left is skipped). -/
def Expression.identifiers : Expression → List Str × List Str
  | .mk none right => opTermsIdentifiers right
  | .mk (some left) right =>
    let l := Term.identifiers left
    let r := opTermsIdentifiers right
    (l.1 ++ r.1, l.2 ++ r.2)

end

end Oparse

namespace Oparse

/- The Go parser is generated by participle from the struct tags in
parser.go, over the default text/scanner lexer.  The lexer and recursive
descent parser below implement that grammar:
  Expression := Term ( (+|-) Term )*
  Term       := Factor ( (*|/) Factor )*
  Factor     := Value ( ^ Value )?
  Value      := Number | String | Function | Variable | ( Expression )
  Function   := Ident ( Arg* )   with  Arg := Expression ,?
Escape sequences and exponent notation in numeric literals are not used by
any statement below and are left out of the lexer model. -/

/-- Tokens of the expression language. -/
inductive Token where
  | num (q : ℚ)
  | strTok (s : Str)
  | ident (s : Str)
  | sym (c : Char)
deriving DecidableEq, Repr

/-- Identifier start characters: letters and underscore. -/
def isIdentStart (c : Char) : Bool := c.isAlpha || c = '_'

/-- Identifier continuation characters: letters, digits and underscore. -/
def isIdentChar (c : Char) : Bool := c.isAlphanum || c = '_'

/-- Whitespace skipped by the lexer. -/
def isWs (c : Char) : Bool := c = ' ' || c = '\t' || c = '\n' || c = '\r'

/-- Numeric value of a list of decimal digits. -/
def digitsToNat (ds : List Char) : Nat :=
  ds.foldl (fun a c => a * 10 + (c.toNat - 48)) 0

/-- Value of an integer part plus a fractional digit string. -/
def numberValue (intDs fracDs : List Char) : ℚ :=
  (digitsToNat intDs : ℚ) + (digitsToNat fracDs : ℚ) / ((10 : ℚ) ^ fracDs.length)

/-- Lexer loop.  The fuel is an embedding artifact: every step consumes at
least one character, so the initial fuel in lex suffices for any input. -/
def lexRun (fuel : Nat) (s : Str) : Except String (List Token) :=
  match fuel with
  | 0 => .error "lexer fuel exhausted"
  | fuel + 1 =>
    match s with
    | [] => .ok []
    | c :: rest =>
      if isWs c then lexRun fuel rest
      else if c.isDigit then
        let intSpan := (c :: rest).span Char.isDigit
        match intSpan.2 with
        | '.' :: afterDot =>
          let fracSpan := afterDot.span Char.isDigit
          match lexRun fuel fracSpan.2 with
          | .error e => .error e
          | .ok ts => .ok (.num (numberValue intSpan.1 fracSpan.1) :: ts)
        | other =>
          match lexRun fuel other with
          | .error e => .error e
          | .ok ts => .ok (.num (digitsToNat intSpan.1 : ℚ) :: ts)
      else if isIdentStart c then
        let idSpan := (c :: rest).span isIdentChar
        match lexRun fuel idSpan.2 with
        | .error e => .error e
        | .ok ts => .ok (.ident idSpan.1 :: ts)
      else if c = '\'' || c = '"' then
        let strSpan := rest.span (fun x => !(x = c))
        match strSpan.2 with
        | [] => .error "string literal not terminated"
        | _ :: afterQuote =>
          match lexRun fuel afterQuote with
          | .error e => .error e
          | .ok ts => .ok (.strTok strSpan.1 :: ts)
      else if c = '(' || c = ')' || c = ',' || c = '+' || c = '-' ||
              c = '*' || c = '/' || c = '^' then
        match lexRun fuel rest with
        | .error e => .error e
        | .ok ts => .ok (.sym c :: ts)
      else
        .error "illegal character"

/-- Tokenize an input string. -/
def lex (s : Str) : Except String (List Token) := lexRun (s.length + 1) s

mutual

/-- Parse an Expression: a Term followed by additive steps. -/
def parseExpression (fuel : Nat) (ts : List Token) :
    Except String (Expression × List Token) :=
  match fuel with
  | 0 => .error "parser fuel exhausted"
  | fuel + 1 =>
    match parseTerm fuel ts with
    | .error e => .error e
    | .ok (t, r1) =>
      match parseOpTerms fuel r1 with
      | .error e => .error e
      | .ok (ops, r2) => .ok (.mk (some t) ops, r2)

/-- Parse the ( (+|-) Term )* tail of an Expression. -/
def parseOpTerms (fuel : Nat) (ts : List Token) :
    Except String (List OpTerm × List Token) :=
  match fuel with
  | 0 => .error "parser fuel exhausted"
  | fuel + 1 =>
    match ts with
    | .sym '+' :: rest =>
      match parseTerm fuel rest with
      | .error e => .error e
      | .ok (t, r1) =>
        match parseOpTerms fuel r1 with
        | .error e => .error e
        | .ok (ops, r2) => .ok (.mk .add t :: ops, r2)
    | .sym '-' :: rest =>
      match parseTerm fuel rest with
      | .error e => .error e
      | .ok (t, r1) =>
        match parseOpTerms fuel r1 with
        | .error e => .error e
        | .ok (ops, r2) => .ok (.mk .sub t :: ops, r2)
    | _ => .ok ([], ts)

/-- Parse a Term: a Factor followed by multiplicative steps. -/
def parseTerm (fuel : Nat) (ts : List Token) :
    Except String (Term × List Token) :=
  match fuel with
  | 0 => .error "parser fuel exhausted"
  | fuel + 1 =>
    match parseFactor fuel ts with
    | .error e => .error e
    | .ok (f, r1) =>
      match parseOpFactors fuel r1 with
      | .error e => .error e
      | .ok (ops, r2) => .ok (.mk f ops, r2)

/-- Parse the ( (*|/) Factor )* tail of a Term. -/
def parseOpFactors (fuel : Nat) (ts : List Token) :
    Except String (List OpFactor × List Token) :=
  match fuel with
  | 0 => .error "parser fuel exhausted"
  | fuel + 1 =>
    match ts with
    | .sym '*' :: rest =>
      match parseFactor fuel rest with
      | .error e => .error e
      | .ok (f, r1) =>
        match parseOpFactors fuel r1 with
        | .error e => .error e
        | .ok (ops, r2) => .ok (.mk .mul f :: ops, r2)
    | .sym '/' :: rest =>
      match parseFactor fuel rest with
      | .error e => .error e
      | .ok (f, r1) =>
        match parseOpFactors fuel r1 with
        | .error e => .error e
        | .ok (ops, r2) => .ok (.mk .div f :: ops, r2)
    | _ => .ok ([], ts)

/-- Parse a Factor: a Value with an optional caret and exponent Value. -/
def parseFactor (fuel : Nat) (ts : List Token) :
    Except String (Factor × List Token) :=
  match fuel with
  | 0 => .error "parser fuel exhausted"
  | fuel + 1 =>
    match parseValue fuel ts with
    | .error e => .error e
    | .ok (base, r1) =>
      match r1 with
      | .sym '^' :: r2 =>
        match parseValue fuel r2 with
        | .error e => .error e
        | .ok (ex, r3) => .ok (.mk base (some ex), r3)
      | _ => .ok (.mk base none, r1)

/-- Parse a Value.  An identifier followed by an opening bracket is a
function call; otherwise it is a variable. -/
def parseValue (fuel : Nat) (ts : List Token) :
    Except String (Value × List Token) :=
  match fuel with
  | 0 => .error "parser fuel exhausted"
  | fuel + 1 =>
    match ts with
    | .num q :: rest => .ok (.number q, rest)
    | .strTok s :: rest => .ok (.strLiteral s, rest)
    | .ident name :: .sym '(' :: rest =>
      match parseArgs fuel rest with
      | .error e => .error e
      | .ok (args, r1) => .ok (.function (.mk name args), r1)
    | .ident name :: rest => .ok (.variable_ name, rest)
    | .sym '(' :: rest =>
      match parseExpression fuel rest with
      | .error e => .error e
      | .ok (e, r1) =>
        match r1 with
        | .sym ')' :: r2 => .ok (.subexpression e, r2)
        | _ => .error "expected closing bracket"
    | _ => .error "unexpected token"

/-- Parse the argument list of a function call up to and including the
closing bracket.  Each argument is an Expression optionally followed by
a comma, per the Arg struct. -/
def parseArgs (fuel : Nat) (ts : List Token) :
    Except String (List Arg × List Token) :=
  match fuel with
  | 0 => .error "parser fuel exhausted"
  | fuel + 1 =>
    match ts with
    | .sym ')' :: rest => .ok ([], rest)
    | _ =>
      match parseExpression fuel ts with
      | .error e => .error e
      | .ok (e, r1) =>
        let r2 := match r1 with
          | .sym ',' :: r => r
          | _ => r1
        match parseArgs fuel r2 with
        | .error e => .error e
        | .ok (args, r3) => .ok (.mk e :: args, r3)

end

/-- Mirror of oparse.Parse: tokenize, parse a full Expression, and require
that all input is consumed. -/
def Parse (s : Str) : Except String Expression :=
  match lex s with
  | .error e => .error e
  | .ok ts =>
    match parseExpression (8 * (ts.length + 2)) ts with
    | .error e => .error e
    | .ok (e, []) => .ok e
    | .ok (_, _ :: _) => .error "unexpected trailing input"

end Oparse

namespace Octree

/-- Path separator constant pathSep from octree.go. -/
def pathSep : Str := ['/']

/-- Root node name constant RootName from octree.go. -/
def rootName : Str := str "root"

/-- Structured model of the errors produced in package octree. -/
inductive TreeErr where
  | invalidPath (p : Str)
  | addChildNoParent (child parent : Str)
  | childrenInvalid (parent : Str)
  | getPayloadNoNode (node : Str)
  | payloadMissing (node : Str)
  | setPayloadNoNode (node : Str)
deriving DecidableEq, Repr

/-- Mirror of normalizePath in octree.go: a lone separator is the root; a
path with adjacent separators is invalid; one trailing separator is
stripped; a leading separator expands to the root segment. -/
def normalizePath (p : Str) : Except TreeErr Str :=
  if p = pathSep then .ok rootName
  else if goContains p (pathSep ++ pathSep) then .error (.invalidPath p)
  else
    let p1 := goTrimSuffix p pathSep
    if goStartsWith p1 pathSep then .ok (rootName ++ p1) else .ok p1

/-- Mirror of expandPath in octree.go: normalize, then split on the
separator (strings.Split with a one-character separator). -/
def expandPath (p : Str) : Except TreeErr (List Str) :=
  match normalizePath p with
  | .error e => .error e
  | .ok n => .ok (n.splitOn '/')

/-- Mirror of struct AdjList in the octree package: node list in insertion
order, adjacency map, and edge weight map. -/
structure AdjList where
  nodes : List Str
  edges : Str → Option (List Str)
  weight : Str × Str → Option Int

/-- Mirror of NewAdjList. -/
def newAdjList : AdjList :=
  { nodes := [], edges := fun _ => none, weight := fun _ => none }

/-- Mirror of AdjList.AddNode: add the node if it has no adjacency entry. -/
def AdjList.addNode (g : AdjList) (n : Str) : AdjList :=
  if (g.edges n).isSome then g
  else
    { g with
      nodes := g.nodes ++ [n]
      edges := fun k => if k = n then some [] else g.edges k }

/-- Mirror of AdjList.AddWeightedEdge: ensure both endpoints exist, store
the weight, and append the edge unless it is already present. -/
def AdjList.addWeightedEdge (g : AdjList) (a z : Str) (w : Int) : AdjList :=
  let g1 := (g.addNode a).addNode z
  let g2 := { g1 with
    weight := fun k => if k = (a, z) then some w else g1.weight k }
  let cur := (g2.edges a).getD []
  if cur.contains z then g2
  else { g2 with edges := fun k => if k = a then some (cur ++ [z]) else g2.edges k }

/-- Mirror of AdjList.AddEdge: default weight 1. -/
def AdjList.addEdge (g : AdjList) (a z : Str) : AdjList :=
  g.addWeightedEdge a z 1

/-- Mirror of AdjList.Neighbors. -/
def AdjList.neighbors (g : AdjList) (a : Str) : List Str :=
  (g.edges a).getD []

/-- Mirror of the OpenConfigNode proto consumed by the tree builder: the
declared subpath string, the bound transformation name, and the children. -/
inductive OpenConfigNode where
  | mk (subpath : Str) (bind : Str) (children : List OpenConfigNode)

/-- Subpath accessor (GetSubpath().GetPath()). -/
def OpenConfigNode.subpath : OpenConfigNode → Str
  | .mk s _ _ => s

/-- Bind accessor (GetBind()). -/
def OpenConfigNode.bind : OpenConfigNode → Str
  | .mk _ b _ => b

/-- Children accessor (GetChildren()). -/
def OpenConfigNode.children : OpenConfigNode → List OpenConfigNode
  | .mk _ _ c => c

/-- Mirror of the Mappings proto: a forest of OpenConfigNodes. -/
structure Mappings where
  nodes : List OpenConfigNode

/-- Mirror of struct OcTree: the adjacency graph and the payload map. -/
structure OcTree where
  graph : AdjList
  payloads : Str → Option OpenConfigNode

/-- Mirror of OcTree.IsValid: the normalized path has an adjacency entry. -/
def OcTree.isValid (t : OcTree) (path : Str) : Bool :=
  match normalizePath path with
  | .error _ => false
  | .ok p => (t.graph.edges p).isSome

/-- Mirror of OcTree.addChild: fails when the parent is unknown, otherwise
adds the edge. -/
def OcTree.addChild (t : OcTree) (parent child : Str) : Except TreeErr OcTree :=
  if !t.isValid parent then .error (.addChildNoParent child parent)
  else .ok { t with graph := t.graph.addEdge parent child }

/-- Mirror of OcTree.getPayload. -/
def OcTree.getPayload (t : OcTree) (node : Str) : Except TreeErr OpenConfigNode :=
  if !t.isValid node then .error (.getPayloadNoNode node)
  else
    match t.payloads node with
    | some val => .ok val
    | none => .error (.payloadMissing node)

/-- Mirror of OcTree.setPayload. -/
def OcTree.setPayload (t : OcTree) (node : Str) (payload : OpenConfigNode) :
    Except TreeErr OcTree :=
  if !t.isValid node then .error (.setPayloadNoNode node)
  else .ok { t with payloads := fun k => if k = node then some payload else t.payloads k }

/-- Segment loop of OcTree.build: create each node in the given path using
its absolute path as the node name.  The Go code discards the error value
of addChild, so a failing addChild leaves the tree unchanged.  Returns the
updated tree and the final full path. -/
def buildSegs (t : OcTree) (parent : Str) (segs : List Str) : OcTree × Str :=
  match segs with
  | [] => (t, parent)
  | node :: rest =>
    let fullPath := parent ++ pathSep ++ node
    let t1 := match t.addChild parent fullPath with
      | .ok t2 => t2
      | .error _ => t
    buildSegs t1 fullPath rest

mutual

/-- Mirror of OcTree.build: expand the declared subpath, reset to root when
the subpath is absolute, create the intermediate nodes, set the payload on
the deepest node only, and recurse into the children. -/
def build (t : OcTree) (parent : Str) : OpenConfigNode → Except TreeErr OcTree
  | .mk sp bd cs =>
    match expandPath sp with
    | .error e => .error e
    | .ok subpath0 =>
      let pair : Str × List Str :=
        match subpath0 with
        | s0 :: rest => if s0 = rootName then (rootName, rest) else (parent, subpath0)
        | [] => (parent, subpath0)
      let built := buildSegs t pair.1 pair.2
      match built.1.setPayload built.2 (.mk sp bd cs) with
      | .error e => .error e
      | .ok t1 => buildList t1 built.2 cs

/-- Child loop of OcTree.build, also used by NewTree over the forest. -/
def buildList (t : OcTree) (parent : Str) : List OpenConfigNode → Except TreeErr OcTree
  | [] => .ok t
  | c :: rest =>
    match build t parent c with
    | .error e => .error e
    | .ok t1 => buildList t1 parent rest

end

/-- Mirror of NewTree: create the root node and build each declared tree. -/
def newTree (m : Mappings) : Except TreeErr OcTree :=
  let t0 : OcTree := { graph := newAdjList.addNode rootName, payloads := fun _ => none }
  buildList t0 rootName m.nodes

/-- Mirror of OcTree.GetTransformationIdentifier: normalize the path, fetch
the payload of that exact node, and return its bound name. -/
def OcTree.getTransformationIdentifier (t : OcTree) (path : Str) :
    Except TreeErr Str :=
  match normalizePath path with
  | .error e => .error e
  | .ok node =>
    match t.getPayload node with
    | .error e => .error e
    | .ok payload => .ok payload.bind

end Octree

open Oparse in
/-- Mirror of the NocPath proto: local name, ordered vendor paths (OIDs),
and sample outputs. -/
structure NocPath where
  bind : Str
  oids : List Str
  samples : List Str

/-- Mirror of the Transformation proto: name, ordered alternative
expressions, and leaf descriptors. -/
structure Transformation where
  bind : Str
  expressions : List Str
  nocPaths : List NocPath

/-- Mirror of the VendorOids proto: the shared vendor root prefix and the
vendor name to enterprise sub-identifier map. -/
structure VendorOids where
  vendorRoot : Str
  vendors : List (Str × Str)

/-- Model of the functionLibrary interface consumed by the engine. -/
structure FunctionLibrary where
  contains : Str → Bool
  call : Oparse.Caller

/-- Mirror of struct Orismologer. -/
structure Orismologer where
  mappings : Octree.OcTree
  transformations : List (Str × Transformation)
  vendorInfo : VendorOids
  nocPathResolver : NocPath → Str → Except String Oparse.GoVal
  functions : FunctionLibrary

/-- Structured model of the error values produced by the engine.  The case
unresolvableNocPath corresponds to the distinguished unresolvableNocPathError
type; the other cases correspond to the fmt.Errorf construction sites. -/
inductive EngineErr where
  | noTransformationForPath (path : Str) (e : Octree.TreeErr)
  | transformationNotFound (name path : Str)
  | parseFailed (input : Str) (msg : String)
  | functionUndefined (name : Str)
  | unresolvableNocPath (bind vendor : Str)
  | resolveFailed (bind target : Str) (msg : String)
  | subTransformationFailed (name : Str) (inner : EngineErr)
  | undefinedIdentifier (name : Str)
  | evalFailed (e : Oparse.OparseErr)
  | noAlternative (rule : Str)
deriving DecidableEq, Repr

/-- Outcome of running the engine: a value, an error, a process abort
propagated from the evaluator, or fuel exhaustion.  The last outcome is an
embedding artifact: the Go original has no recursion bound, so fuelOut
means the Go code would still be recursing at that depth. -/
inductive ERes (α : Type) where
  | ok (v : α)
  | err (e : EngineErr)
  | crash
  | fuelOut
deriving DecidableEq, Repr

/-- Mirror of the loop body of Orismologer.canResolve over the OIDs of a
NocPath.  The vendor lookup sits inside the loop exactly as in the source. -/
def canResolveLoop (vi : VendorOids) (vendor : Str) : List Str → Bool
  | [] => false
  | oid :: rest =>
    if !goStartsWith oid vi.vendorRoot then true
    else
      match vi.vendors.lookup vendor with
      | none => false
      | some vendorOid =>
        if goStartsWith oid (vi.vendorRoot ++ ['.'] ++ vendorOid) then true
        else canResolveLoop vi vendor rest

/-- Mirror of Orismologer.canResolve: does the target vendor support the
given NocPath. -/
def Orismologer.canResolve (o : Orismologer) (nocPath : NocPath) (vendor : Str) : Bool :=
  canResolveLoop o.vendorInfo vendor nocPath.oids

/-- Mirror of Orismologer.handleNocPath: reject the leaf when the vendor
filter refuses it (without consulting the resolver), otherwise resolve. -/
def Orismologer.handleNocPath (o : Orismologer) (nocPath : NocPath)
    (target vendor : Str) : ERes Oparse.GoVal :=
  if !o.canResolve nocPath vendor then
    .err (.unresolvableNocPath nocPath.bind vendor)
  else
    match o.nocPathResolver nocPath target with
    | .error m => .err (.resolveFailed nocPath.bind target m)
    | .ok v => .ok v

/-- Mirror of Orismologer.getNocPaths: index the named NocPaths of a
transformation by local name, skipping unnamed ones.  Entries are
prepended so that a later duplicate shadows an earlier one under
List.lookup, matching Go map overwrite semantics. -/
def Orismologer.getNocPaths (t : Transformation) : List (Str × NocPath) :=
  t.nocPaths.foldl (fun acc np => if np.bind = [] then acc else (np.bind, np) :: acc) []

/-- Mirror of Orismologer.parseAndValidateExpression: parse, then reject
the expression if it calls a function missing from the library.  Returns
the expression with its variables and function names. -/
def Orismologer.parseAndValidateExpression (lib : FunctionLibrary) (s : Str) :
    Except EngineErr (Oparse.Expression × List Str × List Str) :=
  match Oparse.Parse s with
  | .error m => .error (.parseFailed s m)
  | .ok expr =>
    let ids := expr.identifiers
    match ids.2.find? (fun f => !lib.contains f) with
    | some f => .error (.functionUndefined f)
    | none => .ok (expr, ids.1, ids.2)

mutual

/-- Mirror of Orismologer.eval.  The fuel argument is an embedding artifact
bounding the recursion, which is unbounded in the Go source: every step of
the engine consumes one unit, and fuelOut means the Go original would still
be running after that many steps. -/
def Orismologer.eval (o : Orismologer) (fuel : Nat) (t : Transformation)
    (target vendor : Str) : ERes Oparse.GoVal :=
  match fuel with
  | 0 => .fuelOut
  | f + 1 =>
    Orismologer.evalExpressions o f t (Orismologer.getNocPaths t) target vendor t.expressions

/-- Mirror of the expression loop inside Orismologer.eval: try each
alternative in order; a parse, validation or variable failure moves to the
next alternative; an evaluator error is returned to the caller; the first
successful evaluation wins; an exhausted list yields the terminal error
naming the transformation. -/
def Orismologer.evalExpressions (o : Orismologer) (fuel : Nat) (t : Transformation)
    (nocPaths : List (Str × NocPath)) (target vendor : Str)
    (exprs : List Str) : ERes Oparse.GoVal :=
  match fuel with
  | 0 => .fuelOut
  | f + 1 =>
    match exprs with
    | [] => .err (.noAlternative t.bind)
    | e :: rest =>
      match Orismologer.parseAndValidateExpression o.functions e with
      | .error _ => Orismologer.evalExpressions o f t nocPaths target vendor rest
      | .ok pv =>
        match Orismologer.evalVariables o f nocPaths target vendor [] pv.2.1 with
        | .err _ => Orismologer.evalExpressions o f t nocPaths target vendor rest
        | .crash => .crash
        | .fuelOut => .fuelOut
        | .ok values =>
          match Oparse.evalTop pv.1 values o.functions.call with
          | .ok v => .ok v
          | .err m => .err (.evalFailed m)
          | .crash => .crash

/-- Mirror of Orismologer.evalVariables: resolve each variable to a NocPath
value or a recursively evaluated sub-transformation; any failure aborts.
The values accumulator models the Go map (a later binding of the same name
shadows an earlier one under List.lookup). -/
def Orismologer.evalVariables (o : Orismologer) (fuel : Nat)
    (nocPaths : List (Str × NocPath)) (target vendor : Str)
    (values : Oparse.Ctx) (vars : List Str) : ERes Oparse.Ctx :=
  match fuel with
  | 0 => .fuelOut
  | f + 1 =>
    match vars with
    | [] => .ok values
    | v :: rest =>
      match nocPaths.lookup v with
      | some np =>
        match Orismologer.handleNocPath o np target vendor with
        | .err e => .err e
        | .crash => .crash
        | .fuelOut => .fuelOut
        | .ok value =>
          Orismologer.evalVariables o f nocPaths target vendor ((v, value) :: values) rest
      | none =>
        match o.transformations.lookup v with
        | some tr =>
          match Orismologer.eval o f tr target vendor with
          | .err e => .err (.subTransformationFailed v e)
          | .crash => .crash
          | .fuelOut => .fuelOut
          | .ok value =>
            Orismologer.evalVariables o f nocPaths target vendor ((v, value) :: values) rest
        | none => .err (.undefinedIdentifier v)

end

/-- Mirror of the exported Orismologer.Eval: path to transformation name to
transformation, then evaluate. -/
def Orismologer.evalPath (o : Orismologer) (fuel : Nat)
    (openConfigPath target vendor : Str) : ERes Oparse.GoVal :=
  match o.mappings.getTransformationIdentifier openConfigPath with
  | .error e => .err (.noTransformationForPath openConfigPath e)
  | .ok name =>
    match o.transformations.lookup name with
    | none => .err (.transformationNotFound name openConfigPath)
    | some t => o.eval fuel t target vendor

/-- Mirror of the package-level resolve function: return the first sample,
or a constant placeholder when there is none. -/
def defaultResolve (nocPath : NocPath) (_target : Str) : Except String Oparse.GoVal :=
  match nocPath.samples with
  | s :: _ => .ok (.vstr s)
  | [] => .ok (.vstr (str "dummy"))



open Oparse Octree

/-- Mirror of the test harness composition Parse followed by Eval: none
when the input does not parse, otherwise the evaluation outcome. -/
def parseAndEval (s : Str) (ctx : Ctx) (caller : Caller) : Option (EvalOut GoVal) :=
  match Oparse.Parse s with
  | .error _ => none
  | .ok e => some (evalTop e ctx caller)

/-- Function caller stub used where an expression contains no calls. -/
def noCalls : Caller := fun _ _ => .err .unsupportedType

/-- True when the value is a Go string. -/
def isStringVal : GoVal → Bool
  | .vstr _ => true
  | _ => false

/-- True when the value is a Go int. -/
def isIntVal : GoVal → Bool
  | .vint _ => true
  | _ => false

/-- Unfolding lemma for Term.eval (the automatic equation lemmas are not
generated for the nested mutual recursion). -/
theorem Term.eval_mk (left : Factor) (right : List OpFactor) (ctx : Ctx) (caller : Caller) :
    Term.eval (.mk left right) ctx caller =
      (match Factor.eval left ctx caller with
      | .err e => .err e
      | .crash => .crash
      | .ok l => evalOpFactors l right ctx caller) := rfl

/-- Unfolding lemma for the multiplicative step loop. -/
theorem evalOpFactors_cons (acc : GoVal) (o : Op) (f : Factor) (rest : List OpFactor)
    (ctx : Ctx) (caller : Caller) :
    evalOpFactors acc (.mk o f :: rest) ctx caller =
      (match Factor.eval f ctx caller with
      | .err e => .err e
      | .crash => .crash
      | .ok fv =>
        match Op.eval o acc fv with
        | .err e => .err e
        | .crash => .crash
        | .ok acc2 => evalOpFactors acc2 rest ctx caller) := rfl

/-- Step lemma: Term.eval with a successfully evaluated leading factor. -/
theorem Term.eval_ok {left : Factor} {ctx : Ctx} {caller : Caller} {l : GoVal}
    (right : List OpFactor) (hf : Factor.eval left ctx caller = .ok l) :
    Term.eval (.mk left right) ctx caller = evalOpFactors l right ctx caller := by
  rw [Term.eval_mk, hf]

/-- Step lemma: the multiplicative loop with a successfully evaluated factor. -/
theorem evalOpFactors_cons_ok {o : Op} {f : Factor} {ctx : Ctx} {caller : Caller}
    {fv : GoVal} (acc : GoVal) (rest : List OpFactor)
    (hf : Factor.eval f ctx caller = .ok fv) :
    evalOpFactors acc (.mk o f :: rest) ctx caller =
      (match Op.eval o acc fv with
      | .err e => .err e
      | .crash => .crash
      | .ok acc2 => evalOpFactors acc2 rest ctx caller) := by
  rw [evalOpFactors_cons, hf]

/-- Abstract syntax of the subexpression (1-1), used as an indirect zero. -/
def oneMinusOne : Expression :=
  .mk (some (.mk (.mk (.number 1) none) [])) [.mk .sub (.mk (.mk (.number 1) none) [])]

/-- C9: whenever the right operand of the division operator evaluates to the
float value zero, whether written as a literal or produced by a
subexpression such as (1-1), the evaluator returns the division-by-zero
error and never an ordinary value such as an infinity. -/
theorem div_right_zero_always_errors :
    (∀ (x : ℚ), Op.eval .div (.vfloat x) (.vfloat 0) = .err .divisionByZero)
    ∧ (∀ (l : GoVal), (Op.eval .div l (.vfloat 0)).isValue = false)
    ∧ (∀ (f g : Factor) (ctx : Ctx) (caller : Caller) (x : ℚ),
        Factor.eval f ctx caller = .ok (.vfloat x) →
        Factor.eval g ctx caller = .ok (.vfloat 0) →
        Term.eval (.mk f [.mk .div g]) ctx caller = .err .divisionByZero)
    ∧ parseAndEval (str "100 / 0") [] noCalls = some (.err .divisionByZero)
    ∧ Term.eval (.mk (.mk (.number 100) none)
        [.mk .div (.mk (.subexpression oneMinusOne) none)]) [] noCalls =
        .err .divisionByZero := by
  have key : ∀ (f g : Factor) (ctx : Ctx) (caller : Caller) (x : ℚ),
      Factor.eval f ctx caller = .ok (.vfloat x) →
      Factor.eval g ctx caller = .ok (.vfloat 0) →
      Term.eval (.mk f [.mk .div g]) ctx caller = .err .divisionByZero := by
    intro f g ctx caller x hf hg
    rw [Term.eval_ok _ hf, evalOpFactors_cons_ok _ _ hg]
    rfl
  refine ⟨fun x => rfl, fun l => ?_, key, by decide, ?_⟩
  · cases l <;> rfl
  · have hg : Factor.eval (.mk (.subexpression oneMinusOne) none) [] noCalls =
        .ok (.vfloat ((1 : ℚ) - 1)) := rfl
    rw [show ((1 : ℚ) - 1) = 0 from by norm_num] at hg
    exact key _ _ _ _ 100 rfl hg

/-- Witness for div_right_zero_always_errors at concrete operands. -/
theorem div_right_zero_always_errors_witness :
    Term.eval (.mk (.mk (.number 7) none) [.mk .div (.mk (.number 0) none)]) [] noCalls =
      .err .divisionByZero :=
  div_right_zero_always_errors.2.2.1 _ _ _ _ 7 rfl rfl

/-- C8: the addition operator on at least one string operand (int operands
cannot reach the operator, every number having been widened to float)
concatenates the default textual representations of the operands in source
order, while the other arithmetic operators reject string operands with an
error; in particular the two concatenation examples from the specification
evaluate to the quoted strings. -/
theorem plus_concatenates_strings :
    (∀ (l r : GoVal), isIntVal l = false → isIntVal r = false →
      (isStringVal l || isStringVal r) = true →
      Op.eval .add l r = .ok (.vstr (goSprint l ++ goSprint r)))
    ∧ (∀ (o : Op) (l r : GoVal), o ≠ .add → isIntVal l = false → isIntVal r = false →
      (isStringVal l || isStringVal r) = true →
      Op.eval o l r = .err .unsupportedStringOp)
    ∧ parseAndEval (str "'The answer is ' + 41 + 1") [] noCalls =
        some (.ok (.vstr (str "The answer is 411")))
    ∧ parseAndEval (str "'The answer is ' + (41 + 1)") [] noCalls =
        some (.ok (.vstr (str "The answer is 42"))) := by
  refine ⟨?_, ?_, by decide, ?_⟩
  · intro l r h1 h2 h3
    cases l <;> cases r <;> simp_all [isIntVal, isStringVal, Op.eval]
  · intro o l r ho h1 h2 h3
    cases o <;> cases l <;> cases r <;> simp_all [isIntVal, isStringVal, Op.eval]
  · have h1 : parseAndEval (str "'The answer is ' + (41 + 1)") [] noCalls =
        some (.ok (.vstr (str "The answer is " ++ goSprint (.vfloat ((41 : ℚ) + 1))))) := rfl
    rw [show ((41 : ℚ) + 1) = 42 from by norm_num] at h1
    exact h1.trans (by decide)

/-- Witness for plus_concatenates_strings at concrete operands. -/
theorem plus_concatenates_strings_witness :
    Op.eval .add (.vstr (str "a")) (.vfloat 41) = .ok (.vstr (str "a41"))
    ∧ Op.eval .mul (.vstr (str "a")) (.vfloat 2) = .err .unsupportedStringOp :=
  ⟨plus_concatenates_strings.1 _ _ rfl rfl rfl,
   plus_concatenates_strings.2.1 .mul _ _ (by decide) rfl rfl rfl⟩

/-- Unfolding lemma for Factor.eval on a factor with an exponent (the
automatic equation lemmas are not generated for the nested mutual
recursion). -/
theorem Factor.eval_mk_some (base ex : Value) (ctx : Ctx) (caller : Caller) :
    Factor.eval (.mk base (some ex)) ctx caller =
      (match Value.eval base ctx caller with
      | .err e => .err e
      | .crash => .crash
      | .ok b =>
        match Value.eval ex ctx caller with
        | .err e => .err e
        | .crash => .crash
        | .ok ev =>
          match b, ev with
          | .vfloat bq, .vfloat eq => .ok (.vfloat (qpow bq eq))
          | _, _ => .crash) := rfl

/-- C5: evaluating a factor with an exponent yields the power of the two
operands when both the base and the exponent evaluate to floats; but when
either operand evaluates to a string the Go code crashes on an unchecked
float64 type assertion instead of returning an error. -/
theorem factor_exponent_float_only :
    (∀ (base ex : Value) (ctx : Ctx) (caller : Caller) (bq eq : ℚ),
      Value.eval base ctx caller = .ok (.vfloat bq) →
      Value.eval ex ctx caller = .ok (.vfloat eq) →
      Factor.eval (.mk base (some ex)) ctx caller = .ok (.vfloat (qpow bq eq)))
    ∧ (∀ (base ex : Value) (ctx : Ctx) (caller : Caller) (s : Str) (ev : GoVal),
      Value.eval base ctx caller = .ok (.vstr s) →
      Value.eval ex ctx caller = .ok ev →
      Factor.eval (.mk base (some ex)) ctx caller = .crash)
    ∧ (∀ (base ex : Value) (ctx : Ctx) (caller : Caller) (bq : ℚ) (s : Str),
      Value.eval base ctx caller = .ok (.vfloat bq) →
      Value.eval ex ctx caller = .ok (.vstr s) →
      Factor.eval (.mk base (some ex)) ctx caller = .crash)
    ∧ (∀ (ctx : Ctx) (caller : Caller),
      Factor.eval (.mk (.strLiteral (str "a")) (some (.number 2))) ctx caller = .crash) := by
  refine ⟨?_, ?_, ?_, fun ctx caller => rfl⟩
  · intro base ex ctx caller bq eq hb he
    rw [Factor.eval_mk_some, hb, he]
  · intro base ex ctx caller s ev hb he
    rw [Factor.eval_mk_some, hb, he]
  · intro base ex ctx caller bq s hb he
    rw [Factor.eval_mk_some, hb, he]

/-- Witness for factor_exponent_float_only at concrete operands. -/
theorem factor_exponent_float_only_witness :
    Factor.eval (.mk (.number 2) (some (.number 3))) [] (fun _ _ => .crash) =
      .ok (.vfloat 8)
    ∧ Factor.eval (.mk (.number 2) (some (.strLiteral (str "a")))) []
        (fun _ _ => .crash) = .crash := by
  constructor
  · have h := factor_exponent_float_only.1 (.number 2) (.number 3) []
      (fun _ _ => .crash) 2 3 rfl rfl
    rw [show qpow 2 3 = 8 from by simp [qpow]; norm_num] at h
    exact h
  · exact factor_exponent_float_only.2.2.1 (.number 2) (.strLiteral (str "a")) []
      (fun _ _ => .crash) 2 (str "a") rfl rfl

/-- Declarative input of the canonical tree scenario: a node with subpath
"/a" whose child has subpath "b/c" and binds rule "r". -/
def treeDeclaration : Mappings :=
  { nodes := [.mk (str "/a") (str "") [.mk (str "b/c") (str "r") []]] }

/-- The tree built from treeDeclaration. -/
def builtTree : OcTree :=
  match newTree treeDeclaration with
  | .ok t => t
  | .error _ => { graph := newAdjList, payloads := fun _ => none }

/-- C6: building the tree from the declaration with subpath "/a" and child
subpath "b/c" bound to "r" succeeds and yields exactly the nodes root,
root/a, root/a/b and root/a/b/c in insertion order; the rule lookup on
root/a/b/c returns "r" while the intermediate node root/a/b carries no
binding, reported as a missing payload error. -/
theorem octree_build_concrete_scenario :
    newTree treeDeclaration = .ok builtTree
    ∧ builtTree.graph.nodes = [str "root", str "root/a", str "root/a/b", str "root/a/b/c"]
    ∧ builtTree.getTransformationIdentifier (str "root/a/b/c") = .ok (str "r")
    ∧ builtTree.getTransformationIdentifier (str "root/a/b") =
        .error (.payloadMissing (str "root/a/b")) :=
  ⟨rfl, by decide, by decide, by decide⟩

/-- Bridge between the executable goContains and substring occurrence. -/
theorem goContains_iff_occurs (s sub : Str) : goContains s sub = true ↔ sub <:+: s := by
  induction s with
  | nil => simp [goContains]
  | cons c t ih =>
    rw [goContains]
    simp [List.infix_cons_iff, ih]

/-- A single-character suffix is exactly a matching last character. -/
theorem singleton_suffix_iff (c : Char) (s : Str) :
    [c] <:+ s ↔ s.getLast? = some c := by
  constructor
  · rintro ⟨t, rfl⟩
    exact List.getLast?_concat t
  · intro h
    have hne : s ≠ [] := by rintro rfl; simp at h
    refine ⟨s.dropLast, ?_⟩
    have h2 := List.dropLast_append_getLast hne
    have h3 : s.getLast hne = c := by
      rw [List.getLast?_eq_getLast_of_ne_nil hne] at h
      exact Option.some.inj h
    rw [h3] at h2
    exact h2

/-- The trimmed string is a prefix of the original. -/
theorem goTrimSuffix_prefix (s suf : Str) : goTrimSuffix s suf <+: s := by
  rw [goTrimSuffix]
  split
  · exact List.take_prefix _ _
  · exact List.prefix_refl _

/-- Containment is inherited by prefixes in the negative direction. -/
theorem goContains_of_prefix {p1 p sub : Str} (hp : p1 <+: p)
    (hc : goContains p sub = false) : goContains p1 sub = false := by
  by_contra h
  have h1 : goContains p1 sub = true := by
    cases hcc : goContains p1 sub
    · exact absurd hcc h
    · rfl
  have h2 : sub <:+: p := ((goContains_iff_occurs p1 sub).mp h1).trans hp.isInfix
  rw [(goContains_iff_occurs p sub).mpr h2] at hc
  exact Bool.true_eq_false.mp hc

/-- Trimming is the identity when the suffix is absent. -/
theorem goTrimSuffix_noop {s suf : Str} (h : goEndsWith s suf = false) :
    goTrimSuffix s suf = s := by
  rw [goTrimSuffix, h]
  simp

/-- After one trim of the separator, a path free of adjacent separators has
no trailing separator left. -/
theorem goTrimSuffix_no_trailing {p : Str}
    (hc : goContains p (pathSep ++ pathSep) = false) :
    goEndsWith (goTrimSuffix p pathSep) pathSep = false := by
  rw [goTrimSuffix]
  cases he : goEndsWith p pathSep with
  | false => simp [he]
  | true =>
    simp only [he, if_true]
    obtain ⟨t, ht⟩ : pathSep <:+ p := of_decide_eq_true he
    have hlen : p.length - pathSep.length = t.length := by
      rw [← ht]; simp [pathSep]
    rw [hlen, ← ht, List.take_left]
    by_contra hend
    have hend' : goEndsWith t pathSep = true := by
      cases h2 : goEndsWith t pathSep
      · exact absurd h2 hend
      · rfl
    obtain ⟨u, hu⟩ : pathSep <:+ t := of_decide_eq_true hend'
    have : (pathSep ++ pathSep) <:+: p := by
      refine ⟨u, [], ?_⟩
      rw [← ht, ← hu]
      simp
    rw [(goContains_iff_occurs _ _).mpr this] at hc
    exact Bool.true_eq_false.mp hc

/-- Prepending the root segment preserves freedom from adjacent separators. -/
theorem goContains_root_append {p1 : Str}
    (h : goContains p1 (pathSep ++ pathSep) = false) :
    goContains (rootName ++ p1) (pathSep ++ pathSep) = false := by
  have e : rootName ++ p1 = 'r' :: 'o' :: 'o' :: 't' :: p1 := rfl
  have e2 : pathSep ++ pathSep = ['/', '/'] := rfl
  rw [e, e2]
  rw [e2] at h
  simp only [goContains, List.isPrefixOf, Bool.or_eq_false_iff] at h ⊢
  simp_all

/-- The root-prefixed form still ends without a separator when the tail
does, the tail being nonempty. -/
theorem goEndsWith_root_append {p1 : Str} (hne : p1 ≠ [])
    (h : goEndsWith p1 pathSep = false) :
    goEndsWith (rootName ++ p1) pathSep = false := by
  rw [goEndsWith] at h ⊢
  rw [decide_eq_false_iff_not] at h ⊢
  rw [show pathSep = ['/'] from rfl] at h ⊢
  rw [singleton_suffix_iff] at h ⊢
  rw [List.getLast?_append]
  cases hp : p1.getLast? with
  | none => exact absurd (List.getLast?_eq_none_iff.mp hp) hne
  | some c =>
    rw [hp] at h
    simpa [Option.or] using h

/-- The root-prefixed form does not start with the separator. -/
theorem goStartsWith_root_append (p1 : Str) :
    goStartsWith (rootName ++ p1) pathSep = false := by
  have e : rootName ++ p1 = 'r' :: 'o' :: 'o' :: 't' :: p1 := rfl
  rw [e, goStartsWith, decide_eq_false_iff_not, pathSep]
  rw [List.cons_prefix_cons]
  rintro ⟨h, -⟩
  exact absurd h (by decide)

/-- C7: path canonicalization is idempotent on every path it accepts; the
lone separator canonicalizes to root; a trailing separator is stripped and
a leading separator expands to root on the concrete examples; and every
path containing adjacent separators is a canonicalization error. -/
theorem normalizePath_canonicalization_laws :
    (∀ p r, normalizePath p = .ok r → normalizePath r = .ok r)
    ∧ normalizePath (str "/") = .ok (str "root")
    ∧ normalizePath (str "/a/b/") = .ok (str "root/a/b")
    ∧ normalizePath (str "/a/b") = .ok (str "root/a/b")
    ∧ (∀ p, goContains p (pathSep ++ pathSep) = true →
        normalizePath p = .error (.invalidPath p)) := by
  refine ⟨?_, by decide, by decide, by decide, ?_⟩
  · intro p r h
    simp only [normalizePath] at h
    by_cases hsep : p = pathSep
    · rw [if_pos hsep] at h
      have hr : r = rootName := (Except.ok.inj h).symm
      subst hr
      decide
    · rw [if_neg hsep] at h
      by_cases hcon : goContains p (pathSep ++ pathSep) = true
      · rw [if_pos hcon] at h
        exact Except.noConfusion h
      · have hconF : goContains p (pathSep ++ pathSep) = false := by
          cases hcc : goContains p (pathSep ++ pathSep)
          · rfl
          · exact absurd hcc hcon
        rw [if_neg hcon] at h
        have hpre : goTrimSuffix p pathSep <+: p := goTrimSuffix_prefix p pathSep
        have hconp1 : goContains (goTrimSuffix p pathSep) (pathSep ++ pathSep) = false :=
          goContains_of_prefix hpre hconF
        have hend : goEndsWith (goTrimSuffix p pathSep) pathSep = false :=
          goTrimSuffix_no_trailing hconF
        by_cases hst : goStartsWith (goTrimSuffix p pathSep) pathSep = true
        · rw [if_pos hst] at h
          have hr : r = rootName ++ goTrimSuffix p pathSep := (Except.ok.inj h).symm
          subst hr
          obtain ⟨p2, hp2⟩ : pathSep <+: goTrimSuffix p pathSep := of_decide_eq_true hst
          have hne : goTrimSuffix p pathSep ≠ [] := by
            rw [← hp2]; simp [pathSep]
          have c1 : rootName ++ goTrimSuffix p pathSep ≠ pathSep := by
            intro hEq
            have h4 : (rootName ++ goTrimSuffix p pathSep).length = pathSep.length :=
              congrArg List.length hEq
            rw [List.length_append] at h4
            have hr4 : rootName.length = 4 := by decide
            have hs1 : pathSep.length = 1 := by decide
            omega
          have c2 := goContains_root_append hconp1
          have c3 := goEndsWith_root_append hne hend
          have c4 := goStartsWith_root_append (goTrimSuffix p pathSep)
          simp only [normalizePath]
          rw [if_neg c1, if_neg (by simp [c2]), goTrimSuffix_noop c3,
            if_neg (by simp [c4])]
        · have hstF : goStartsWith (goTrimSuffix p pathSep) pathSep = false := by
            cases hss : goStartsWith (goTrimSuffix p pathSep) pathSep
            · rfl
            · exact absurd hss hst
          rw [if_neg hst] at h
          have hr : r = goTrimSuffix p pathSep := (Except.ok.inj h).symm
          subst hr
          have c1 : goTrimSuffix p pathSep ≠ pathSep := by
            intro hEq
            rw [hEq] at hstF
            exact absurd hstF (by decide)
          simp only [normalizePath]
          rw [if_neg c1, if_neg (by simp [hconp1]), goTrimSuffix_noop hend,
            if_neg (by simp [hstF])]
  · intro p hcon
    have hne : p ≠ pathSep := by
      rintro rfl
      exact absurd hcon (by decide)
    simp only [normalizePath]
    rw [if_neg hne, if_pos hcon]

/-- Witness for normalizePath_canonicalization_laws: idempotence applied to
a concrete accepted path, and the adjacent-separator error at a concrete
path. -/
theorem normalizePath_canonicalization_laws_witness :
    normalizePath (str "/x/") = .ok (str "root/x")
    ∧ normalizePath (str "root/x") = .ok (str "root/x")
    ∧ normalizePath (str "a//b") = .error (.invalidPath (str "a//b")) :=
  ⟨by decide,
   normalizePath_canonicalization_laws.1 (str "/x/") (str "root/x") (by decide),
   normalizePath_canonicalization_laws.2.2.2.2 (str "a//b") (by decide)⟩

/-- Empty path tree used by engine fixtures that never consult mappings. -/
def emptyTree : OcTree := { graph := newAdjList.addNode rootName, payloads := fun _ => none }

/-- Function library with no functions, for expressions that call none. -/
def noLibrary : FunctionLibrary :=
  { contains := fun _ => false, call := fun _ _ => .err .unsupportedType }

/-- Vendor table of the repository test fixture: root 1.3.6.1.4.1 with
cisco bound to 9 and aruba bound to 14823. -/
def testVendorInfo : VendorOids :=
  { vendorRoot := str "1.3.6.1.4.1",
    vendors := [(str "cisco", str "9"), (str "aruba", str "14823")] }

/-- Engine fixture with the test vendor table and no transformations. -/
def oTest : Orismologer :=
  { mappings := emptyTree, transformations := [], vendorInfo := testVendorInfo,
    nocPathResolver := defaultResolve, functions := noLibrary }

/-- C3 counterexample: for a vendor absent from the vendor table, a leaf
whose first vendor path is vendor-rooted is rejected outright; the second,
vendor-neutral path 1.2.3 is never examined, although the claim says the
check continues with it and admits the leaf. -/
theorem canResolve_unknown_vendor_counterexample :
    Orismologer.canResolve oTest
      { bind := str "leaf", oids := [str "1.3.6.1.4.1.9.9", str "1.2.3"], samples := [] }
      (str "juniper") = false := by decide

/-- C3 amended: when the target vendor has no entry in the vendor table,
canResolve examines only the first vendor path: the leaf is admissible
exactly when that first path is not vendor-rooted, and a leaf whose first
path is vendor-rooted is rejected without trying later paths. -/
theorem canResolve_unknown_vendor_amended :
    ∀ (o : Orismologer) (np : NocPath) (vendor : Str),
      o.vendorInfo.vendors.lookup vendor = none →
      o.canResolve np vendor =
        (match np.oids with
        | [] => false
        | oid :: _ => !goStartsWith oid o.vendorInfo.vendorRoot) := by
  intro o np vendor h
  simp only [Orismologer.canResolve]
  cases hoids : np.oids with
  | nil => rfl
  | cons oid rest =>
    simp only [canResolveLoop, h]
    cases hpre : goStartsWith oid o.vendorInfo.vendorRoot <;> simp [hpre]

/-- Witness for canResolve_unknown_vendor_amended: a leaf whose first path
is vendor-neutral is admissible for an unknown vendor. -/
theorem canResolve_unknown_vendor_amended_witness :
    Orismologer.canResolve oTest
      { bind := str "leaf", oids := [str "1.2.3"], samples := [] } (str "juniper") = true := by
  have h := canResolve_unknown_vendor_amended oTest
    { bind := str "leaf", oids := [str "1.2.3"], samples := [] } (str "juniper") (by decide)
  exact h.trans (by decide)

/-- C4 counterexample: with sub-identifier 9 for cisco, the vendor-rooted
path 1.3.6.1.4.1.91.1 is admitted because the code tests a plain string
prefix, although the claim says a path that merely extends the digits of
the sub-identifier is not admissible. -/
theorem canResolve_digit_extension_counterexample :
    Orismologer.canResolve oTest
      { bind := str "leaf", oids := [str "1.3.6.1.4.1.91.1"], samples := [] }
      (str "cisco") = true := by decide

/-- C4 amended: for a vendor with a known sub-identifier, a leaf is
admissible exactly when some vendor path either is not vendor-rooted or
starts with the plain string prefix vendorRoot dot sub-identifier, a test
that also admits paths extending the digits of the sub-identifier. -/
theorem canResolve_known_vendor_amended :
    ∀ (o : Orismologer) (np : NocPath) (vendor vid : Str),
      o.vendorInfo.vendors.lookup vendor = some vid →
      o.canResolve np vendor =
        np.oids.any (fun oid =>
          !goStartsWith oid o.vendorInfo.vendorRoot ||
            goStartsWith oid (o.vendorInfo.vendorRoot ++ ['.'] ++ vid)) := by
  intro o np vendor vid h
  simp only [Orismologer.canResolve]
  induction np.oids with
  | nil => rfl
  | cons oid rest ih =>
    simp only [canResolveLoop, h, List.any_cons]
    cases hpre : goStartsWith oid o.vendorInfo.vendorRoot
    · simp [hpre]
    · cases hmatch : goStartsWith oid (o.vendorInfo.vendorRoot ++ ['.'] ++ vid)
      · simp [hpre, hmatch, ih]
      · simp [hpre, hmatch]

/-- Witness for canResolve_known_vendor_amended: the repository test case
of a cisco OID for the cisco target. -/
theorem canResolve_known_vendor_amended_witness :
    Orismologer.canResolve oTest
      { bind := str "leaf", oids := [str "1.3.6.1.4.1.9.9.48.1.1.1.5.1"], samples := [] }
      (str "cisco") = true := by
  have h := canResolve_known_vendor_amended oTest
    { bind := str "leaf", oids := [str "1.3.6.1.4.1.9.9.48.1.1.1.5.1"], samples := [] }
    (str "cisco") (str "9") (by decide)
  exact h.trans (by decide)

/-- Leaf descriptor with an empty list of vendor paths. -/
def emptyOidsLeaf : NocPath := { bind := str "x", oids := [], samples := [] }

/-- Transformation whose first alternative references the empty-oids leaf
and whose second alternative is a string literal. -/
def fallbackTransformation : Transformation :=
  { bind := str "t", expressions := [str "x", str "'fallback'"],
    nocPaths := [emptyOidsLeaf] }

/-- Engine fixture around fallbackTransformation, parameterized by the
leaf resolver to show the resolver is never consulted. -/
def oFallback (res : NocPath → Str → Except String GoVal) : Orismologer :=
  { mappings := emptyTree, transformations := [(str "t", fallbackTransformation)],
    vendorInfo := testVendorInfo, nocPathResolver := res, functions := noLibrary }

/-- C10: a leaf with no vendor paths is admissible for no vendor; a
transformation alternative referencing such a leaf is abandoned without
invoking the resolver (the outcome is the same for every resolver), and
evaluation proceeds to the next alternative. -/
theorem empty_oids_leaf_never_admissible :
    (∀ (o : Orismologer) (b : Str) (samples : List Str) (vendor : Str),
      o.canResolve { bind := b, oids := [], samples := samples } vendor = false)
    ∧ (∀ (o : Orismologer) (b : Str) (samples : List Str) (target vendor : Str),
      o.handleNocPath { bind := b, oids := [], samples := samples } target vendor =
        .err (.unresolvableNocPath b vendor))
    ∧ (∀ (res : NocPath → Str → Except String GoVal) (target vendor : Str),
      Orismologer.eval (oFallback res) 9 fallbackTransformation target vendor =
        .ok (.vstr (str "fallback"))) :=
  ⟨fun _ _ _ _ => rfl, fun _ _ _ _ _ => rfl, fun _ _ _ => rfl⟩

/-- Transformation whose first alternative divides by zero and whose second
alternative is the literal 2. -/
def divByZeroTransformation : Transformation :=
  { bind := str "t", expressions := [str "1/0", str "2"], nocPaths := [] }

/-- Engine fixture around divByZeroTransformation. -/
def oDivByZero : Orismologer :=
  { mappings := emptyTree, transformations := [(str "t", divByZeroTransformation)],
    vendorInfo := testVendorInfo, nocPathResolver := defaultResolve, functions := noLibrary }

/-- C1 counterexample: with alternatives 1/0 and 2, the first alternative
parses and its variables resolve, but its evaluation fails with division by
zero; eval returns that error instead of trying the second alternative,
although the claim says the next alternative is tried and the result would
be the float 2. -/
theorem eval_error_returned_counterexample :
    Orismologer.eval oDivByZero 9 divByZeroTransformation (str "tgt") (str "v") =
      .err (.evalFailed .divisionByZero)
    ∧ Orismologer.eval oDivByZero 9 divByZeroTransformation (str "tgt") (str "v") ≠
      .ok (.vfloat 2) :=
  ⟨by decide, by decide⟩

/-- C1 amended: alternatives are tried in declaration order; the first
alternative that parses, validates, resolves its variables and evaluates
successfully determines the result, with later alternatives never examined;
a parse or validation failure or a variable resolution failure abandons the
alternative and moves to the next; an evaluator error is returned to the
caller at once rather than abandoning the alternative; and only an
exhausted alternative list yields the terminal error naming the rule. -/
theorem evalRule_alternative_selection_amended :
    (∀ (o : Orismologer) (fuel : Nat) (t : Transformation)
      (nocPaths : List (Str × NocPath)) (target vendor e : Str) (rest : List Str)
      (expr : Expression) (vars fns : List Str) (values : Ctx) (v : GoVal),
      Orismologer.parseAndValidateExpression o.functions e = .ok (expr, vars, fns) →
      Orismologer.evalVariables o fuel nocPaths target vendor [] vars = .ok values →
      Oparse.evalTop expr values o.functions.call = .ok v →
      Orismologer.evalExpressions o (fuel + 1) t nocPaths target vendor (e :: rest) = .ok v)
    ∧ (∀ (o : Orismologer) (fuel : Nat) (t : Transformation)
      (nocPaths : List (Str × NocPath)) (target vendor e : Str) (rest : List Str)
      (err : EngineErr),
      Orismologer.parseAndValidateExpression o.functions e = .error err →
      Orismologer.evalExpressions o (fuel + 1) t nocPaths target vendor (e :: rest) =
        Orismologer.evalExpressions o fuel t nocPaths target vendor rest)
    ∧ (∀ (o : Orismologer) (fuel : Nat) (t : Transformation)
      (nocPaths : List (Str × NocPath)) (target vendor e : Str) (rest : List Str)
      (expr : Expression) (vars fns : List Str) (err : EngineErr),
      Orismologer.parseAndValidateExpression o.functions e = .ok (expr, vars, fns) →
      Orismologer.evalVariables o fuel nocPaths target vendor [] vars = .err err →
      Orismologer.evalExpressions o (fuel + 1) t nocPaths target vendor (e :: rest) =
        Orismologer.evalExpressions o fuel t nocPaths target vendor rest)
    ∧ (∀ (o : Orismologer) (fuel : Nat) (t : Transformation)
      (nocPaths : List (Str × NocPath)) (target vendor e : Str) (rest : List Str)
      (expr : Expression) (vars fns : List Str) (values : Ctx) (m : OparseErr),
      Orismologer.parseAndValidateExpression o.functions e = .ok (expr, vars, fns) →
      Orismologer.evalVariables o fuel nocPaths target vendor [] vars = .ok values →
      Oparse.evalTop expr values o.functions.call = .err m →
      Orismologer.evalExpressions o (fuel + 1) t nocPaths target vendor (e :: rest) =
        .err (.evalFailed m))
    ∧ (∀ (o : Orismologer) (fuel : Nat) (t : Transformation)
      (nocPaths : List (Str × NocPath)) (target vendor : Str),
      Orismologer.evalExpressions o (fuel + 1) t nocPaths target vendor [] =
        .err (.noAlternative t.bind)) := by
  refine ⟨?_, ?_, ?_, ?_, fun o fuel t np target vendor => rfl⟩
  · intro o fuel t np target vendor e rest expr vars fns values v hparse hvars heval
    simp only [Orismologer.evalExpressions, hparse, hvars, heval]
  · intro o fuel t np target vendor e rest err hparse
    simp only [Orismologer.evalExpressions, hparse]
  · intro o fuel t np target vendor e rest expr vars fns err hparse hvars
    simp only [Orismologer.evalExpressions, hparse, hvars]
  · intro o fuel t np target vendor e rest expr vars fns values m hparse hvars heval
    simp only [Orismologer.evalExpressions, hparse, hvars, heval]

/-- Witness for evalRule_alternative_selection_amended: the literal
alternative 2 wins immediately, and the division-by-zero alternative
returns its evaluation error. -/
theorem evalRule_alternative_selection_amended_witness :
    Orismologer.evalExpressions oDivByZero 2 divByZeroTransformation [] (str "tgt")
      (str "v") [str "2"] = .ok (.vfloat 2)
    ∧ Orismologer.evalExpressions oDivByZero 2 divByZeroTransformation [] (str "tgt")
      (str "v") [str "1/0", str "2"] = .err (.evalFailed .divisionByZero) := by
  constructor
  · exact evalRule_alternative_selection_amended.1 oDivByZero 1 divByZeroTransformation
      [] (str "tgt") (str "v") (str "2") []
      (.mk (some (.mk (.mk (.number 2) none) [])) []) [] [] [] (.vfloat 2)
      rfl rfl rfl
  · exact evalRule_alternative_selection_amended.2.2.2.1 oDivByZero 1
      divByZeroTransformation [] (str "tgt") (str "v") (str "1/0") [str "2"]
      (.mk (some (.mk (.mk (.number 1) none) [.mk .div (.mk (.number 0) none)])) [])
      [] [] [] .divisionByZero rfl rfl rfl

/-- Transformation named r whose only expression is the bare identifier r,
a direct circular reference. -/
def circularTransformation : Transformation :=
  { bind := str "r", expressions := [str "r"], nocPaths := [] }

/-- Abstract syntax of the expression r: a lone variable. -/
def rParsedExpression : Expression :=
  .mk (some (.mk (.mk (.variable_ (str "r")) none) [])) []

/-- Engine fixture around circularTransformation, parameterized by resolver
and function library to show neither affects the outcome. -/
def oCircular (res : NocPath → Str → Except String GoVal)
    (lib : FunctionLibrary) : Orismologer :=
  { mappings := emptyTree, transformations := [(str "r", circularTransformation)],
    vendorInfo := testVendorInfo, nocPathResolver := res, functions := lib }

/-- C2: the engine has no recursion bound at all: evaluating the circular
rule r never completes, whatever the fuel, the resolver, the library or the
request; the Go original would recurse forever instead of returning the
error the claim requires after a depth of at least 64. -/
theorem circular_rule_never_terminates :
    ∀ (fuel : Nat) (res : NocPath → Str → Except String GoVal)
      (lib : FunctionLibrary) (target vendor : Str),
      Orismologer.eval (oCircular res lib) fuel circularTransformation target vendor =
        .fuelOut := by
  intro fuel res lib target vendor
  induction fuel using Nat.strong_induction_on with
  | _ fuel ih =>
    match fuel with
    | 0 => rfl
    | 1 => rfl
    | 2 => rfl
    | (n + 3) =>
      have hparse : Orismologer.parseAndValidateExpression lib (str "r") =
          .ok (rParsedExpression, [str "r"], []) := rfl
      have hlook : List.lookup (str "r") (oCircular res lib).transformations =
          some circularTransformation := rfl
      have hnp : Orismologer.getNocPaths circularTransformation = [] := rfl
      have hexprs : circularTransformation.expressions = [str "r"] := rfl
      have hfun : (oCircular res lib).functions = lib := rfl
      have hvars : Orismologer.evalVariables (oCircular res lib) (n + 1) [] target vendor
          [] [str "r"] = .fuelOut := by
        simp only [Orismologer.evalVariables, List.lookup_nil, hlook]
        rw [ih n (by omega)]
      simp only [Orismologer.eval, Orismologer.evalExpressions, hnp, hexprs, hfun,
        hparse, hvars]
